import Mathlib

/-!
Verification of the tpc-rs coordinate-transform and helix components.

The scalar pad/time/row converters of src/src/coords.cpp are embedded over ℚ
(an exact model of the source's real arithmetic); the per-sector rigid
transform cache of CoordTransform::SetTpcRotations and the StHelix
parametrization of src/src/particles/StHelix.hh are embedded over ℝ, since
they involve trigonometric functions and square roots.

External collaborators (the calibration store read through tpcrs::Configurator,
and the helpers tpcrs::NumberOfPads, tpcrs::RadialDistanceAtRow,
tpcrs::DriftVelocity, tpcrs::IsInner, whose sources are not part of this
repository core) are modelled as abstract fields of a configuration record,
matching the interface contract of spec section 6.
-/

/-- Calibration/configuration snapshot used by CoordTransform.  Scalar fields
mirror the categories read in src/src/coords.cpp; function-valued fields model
the external per-row / per-sector lookup helpers. -/
structure TpcConfig where
  /-- tpcPadPlanes.padRows -/
  padRows : ℤ
  /-- tpcPadPlanes.innerPadRows -/
  innerPadRows : ℤ
  /-- tpcPadPlanes.innerSectorPadPitch -/
  innerSectorPadPitch : ℚ
  /-- tpcPadPlanes.outerSectorPadPitch -/
  outerSectorPadPitch : ℚ
  /-- tpcrs::NumberOfPads(row, cfg), external helper: pads in a given row -/
  numberOfPads : ℤ → ℤ
  /-- tpcrs::RadialDistanceAtRow(row, cfg), external helper -/
  radialDistanceAtRow : ℤ → ℚ
  /-- tpcrs::DriftVelocity(sector, cfg), external helper -/
  driftVelocity : ℤ → ℚ
  /-- tpcrs::IsInner(row, cfg), external helper -/
  isInner : ℤ → Bool
  /-- trgTimeOffset.offset -/
  triggerOffset : ℚ
  /-- tpcElectronics.tZero -/
  tZero : ℚ
  /-- tpcPadrowT0(sector-1).T0: the per-sector array of per-row T0 values;
  the argument is the zero-based sector index (sector-1 at the call sites). -/
  padrowT0 : ℤ → List ℚ
  /-- tpcSectorT0offset.t0: flat array indexed by l-1 at the call sites;
  the argument here is the raw array index. -/
  sectorT0offset : ℤ → ℚ
  /-- starClockOnl.frequency -/
  frequency : ℚ

/-- tpcEffectiveGeom z offsets, cached in the CoordTransform constructor. -/
structure TpcZOffsets where
  zInnerOffset : ℚ
  zOuterOffset : ℚ

/-- timebin_width_ = 1e6 / starClockOnl.frequency, computed once in the
CoordTransform constructor. -/
def timebinWidth (cfg : TpcConfig) : ℚ := 1000000 / cfg.frequency

/-- CoordTransform::XToPad (src/src/coords.cpp lines 80-93).  The row is
clamped from above to padRows only; the pitch is the inner pitch for
row <= innerPadRows and the outer pitch otherwise; the linear formula
(npads+1)/2 - x/pitch is clamped below at 0.500001. -/
def XToPad (cfg : TpcConfig) (x : ℚ) (sector row : ℤ) : ℚ :=
  let row := if row > cfg.padRows then cfg.padRows else row
  let pitch := if row ≤ cfg.innerPadRows then cfg.innerSectorPadPitch
               else cfg.outerSectorPadPitch
  let npads := cfg.numberOfPads row
  let probablePad := ((npads : ℚ) + 1) / 2 - x / pitch
  if probablePad < 500001 / 1000000 then 500001 / 1000000 else probablePad

/-- CoordTransform::PadToX (src/src/coords.cpp lines 96-107). -/
def PadToX (cfg : TpcConfig) (sector row : ℤ) (pad : ℚ) : ℚ :=
  let row := if row > cfg.padRows then cfg.padRows else row
  let pitch := if row ≤ cfg.innerPadRows then cfg.innerSectorPadPitch
               else cfg.outerSectorPadPitch
  let npads := cfg.numberOfPads row
  let res := -pitch * (pad - ((npads : ℚ) + 1) / 2)
  res

/-- The read cfg.S<tpcPadrowT0>(sector-1).T0[row-1] performed by TimeToZ and
ZToTime.  The C++ index row-1 is an int; the access is in bounds only for
1 <= row <= length of the table, and the model returns none otherwise
(out-of-bounds read, undefined behaviour in the source). -/
def t0Lookup (cfg : TpcConfig) (sector row : ℤ) : Option ℚ :=
  if 1 ≤ row then (cfg.padrowT0 (sector - 1)).get? (row - 1).toNat else none

/-- CoordTransform::TimeToZ (src/src/coords.cpp lines 110-128).  The pad
argument is unused by the body (the C++ signature declares it as int; callers
pass a truncated double).  Returns none when the T0 table read is out of
bounds. -/
def TimeToZ (cfg : TpcConfig) (tb : ℚ) (sector row : ℤ) (pad : ℚ) : Option ℚ :=
  let row := if row > cfg.padRows then cfg.padRows else row
  match t0Lookup cfg sector row with
  | none => none
  | some sectT0 =>
    let trigT0 := 1 / 1000000 * cfg.triggerOffset * 1000000
    let elecT0 := cfg.tZero
    let t0 := trigT0 + elecT0 + sectT0
    let l := if cfg.isInner row then sector + 24 else sector
    let tbx := tb + cfg.sectorT0offset (l - 1)
    let time := t0 + tbx * timebinWidth cfg
    some (cfg.driftVelocity sector * (1 / 1000000) * time)

/-- CoordTransform::ZToTime (src/src/coords.cpp lines 131-147).  Same
structure as TimeToZ with the linear map inverted.  Returns none when the T0
table read is out of bounds. -/
def ZToTime (cfg : TpcConfig) (z : ℚ) (sector row : ℤ) (pad : ℚ) : Option ℚ :=
  let row := if row > cfg.padRows then cfg.padRows else row
  match t0Lookup cfg sector row with
  | none => none
  | some sectT0 =>
    let trigT0 := 1 / 1000000 * cfg.triggerOffset * 1000000
    let elecT0 := cfg.tZero
    let t0 := trigT0 + elecT0 + sectT0
    let time := z / (cfg.driftVelocity sector * (1 / 1000000))
    let l := if cfg.isInner row then sector + 24 else sector
    some ((time - t0) / timebinWidth cfg - cfg.sectorT0offset (l - 1))

/-- The boundary value Radii[i-1] built by CoordTransform::YToRow
(src/src/coords.cpp lines 162-175), for the one-based loop index i. -/
def radiusBoundary (cfg : TpcConfig) (i : ℤ) : ℚ :=
  let R := cfg.radialDistanceAtRow
  if i = 1 then (3 * R 1 - R 2) / 2
  else if i = cfg.padRows + 1 then (3 * R (i - 1) - R (i - 2)) / 2
  else (R (i - 1) + R i) / 2

/-- The Radii array of YToRow: padRows + 1 boundary values. -/
def radiiList (cfg : TpcConfig) : List ℚ :=
  (List.range (cfg.padRows.toNat + 1)).map fun j => radiusBoundary cfg ((j : ℤ) + 1)

/-- CoordTransform::YToRow (src/src/coords.cpp lines 150-187).  The sector
argument is unused by the body.  std::lower_bound on the boundary array is
modelled as the index of the first element that is >= y (its specified result
on a sorted range); the exact-hit adjustment and the two clamps follow the
source. -/
def YToRow (cfg : TpcConfig) (y : ℚ) (sector : ℤ) : ℤ :=
  let radii := radiiList cfg
  let idx := radii.findIdx fun r => decide (y ≤ r)
  let row : ℤ := if radii.get? idx = some y then (idx : ℤ) + 1 else (idx : ℤ)
  let row := if row ≤ 0 then 1 else row
  if row > cfg.padRows then cfg.padRows else row

/-- Position triple of src coords.h, over ℚ. -/
structure Coords where
  x : ℚ
  y : ℚ
  z : ℚ
deriving DecidableEq

/-- StTpcLocalSectorCoordinate: position plus sector and row. -/
structure StTpcLocalSectorCoordinate where
  position : Coords
  sector : ℤ
  row : ℤ
deriving DecidableEq

/-- StTpcPadCoordinate: sector, row, fractional pad, time bucket. -/
structure StTpcPadCoordinate where
  sector : ℤ
  row : ℤ
  pad : ℚ
  timeBucket : ℚ
deriving DecidableEq

/-- CoordTransform::local_sector_to_hardware (src/src/coords.cpp lines
55-67).  The row is re-derived via YToRow when out of [1, padRows]; note that
the source passes the original a.row, not the re-derived row, to XToPad.
Returns none when the T0 read inside ZToTime is out of bounds. -/
def local_sector_to_hardware (cfg : TpcConfig) (zo : TpcZOffsets)
    (a : StTpcLocalSectorCoordinate) : Option StTpcPadCoordinate :=
  let row := if a.row < 1 ∨ a.row > cfg.padRows then YToRow cfg a.position.y a.sector
             else a.row
  let probablePad := XToPad cfg a.position.x a.sector a.row
  let zoffset := if row > cfg.innerPadRows then zo.zOuterOffset else zo.zInnerOffset
  (ZToTime cfg (a.position.z + zoffset) a.sector row probablePad).map fun tb =>
    ⟨a.sector, row, probablePad, tb⟩

/-- Small concrete configuration used to evaluate the model on explicit
inputs: two pad rows, one of them inner, unit inner pitch, double outer
pitch, three pads per row, row radius equal to the row index, unit drift
velocity, a clock of 1 MHz (so the time bin width is 1), and all timing
offsets zero. -/
def testCfg : TpcConfig where
  padRows := 2
  innerPadRows := 1
  innerSectorPadPitch := 1
  outerSectorPadPitch := 2
  numberOfPads := fun _ => 3
  radialDistanceAtRow := fun i => (i : ℚ)
  driftVelocity := fun _ => 1
  isInner := fun _ => false
  triggerOffset := 0
  tZero := 0
  padrowT0 := fun _ => [0, 0]
  sectorT0offset := fun _ => 0
  frequency := 1000000

/-- Zero z offsets for the concrete evaluations. -/
def testZo : TpcZOffsets where
  zInnerOffset := 0
  zOuterOffset := 0

/-- Input to StHelix::bad (src/src/particles/StHelix.hh lines 191-217): the
fields it reads.  A double that may be non-finite is modelled as Option ℚ
(none = not finite); origin validation is delegated to
StThreeVector::bad, whose source is outside this repository core, so only
its result code is kept here, matching the delegation in the source. -/
structure HelixBadInput where
  dipAngle : Option ℚ
  curvature : Option ℚ
  originErr : ℤ
  h : ℤ

/-- The exact value of the C double constant M_PI. -/
def mPiQ : ℚ := 884279719003555 / 281474976710656

/-- StHelix::bad (src/src/particles/StHelix.hh lines 191-217): the sequence
of early returns, in source order.  Total: no exception paths exist. -/
def helixBad (st : HelixBadInput) (worldSize : ℚ) : ℤ :=
  match st.dipAngle with
  | none => 11
  | some d =>
    match st.curvature with
    | none => 12
    | some c =>
      if st.originErr ≠ 0 then 3 + st.originErr * 100
      else if |d| > 158 / 100 then 21
      else if |(|d| - mPiQ / 2)| < 1 / worldSize then 31
      else if |c| > worldSize then 22
      else if c < 0 then 32
      else if |st.h| ≠ 1 then 24
      else 0

/-- Position triple of StThreeVector, over ℝ, for the helix parametrization. -/
structure ThreeVec where
  x : ℝ
  y : ℝ
  z : ℝ

/-- The fields of StHelix (src/src/particles/StHelix.hh lines 101-112). -/
structure StHelix where
  mSingularity : Bool
  mOrigin : ThreeVec
  mDipAngle : ℝ
  mCurvature : ℝ
  mPhase : ℝ
  mH : ℤ
  mCosDipAngle : ℝ
  mSinDipAngle : ℝ
  mCosPhase : ℝ
  mSinPhase : ℝ

/-- StHelix::x (src/src/particles/StHelix.hh lines 133-139). -/
noncomputable def StHelix.xAt (hx : StHelix) (s : ℝ) : ℝ :=
  if hx.mSingularity then hx.mOrigin.x - s * hx.mCosDipAngle * hx.mSinPhase
  else hx.mOrigin.x +
    (Real.cos (hx.mPhase + s * (hx.mH : ℝ) * hx.mCurvature * hx.mCosDipAngle)
      - hx.mCosPhase) / hx.mCurvature

/-- StHelix::y (src/src/particles/StHelix.hh lines 141-147). -/
noncomputable def StHelix.yAt (hx : StHelix) (s : ℝ) : ℝ :=
  if hx.mSingularity then hx.mOrigin.y + s * hx.mCosDipAngle * hx.mCosPhase
  else hx.mOrigin.y +
    (Real.sin (hx.mPhase + s * (hx.mH : ℝ) * hx.mCurvature * hx.mCosDipAngle)
      - hx.mSinPhase) / hx.mCurvature

/-- StHelix::z (src/src/particles/StHelix.hh lines 149-152). -/
noncomputable def StHelix.zAt (hx : StHelix) (s : ℝ) : ℝ :=
  hx.mOrigin.z + s * hx.mSinDipAngle

/-- StHelix::at (src/src/particles/StHelix.hh lines 177-180). -/
noncomputable def StHelix.atS (hx : StHelix) (s : ℝ) : ThreeVec :=
  ⟨hx.xAt s, hx.yAt s, hx.zAt s⟩

/-- A rigid transform as held by TGeoHMatrix: a 3x3 rotation block plus a
translation vector; a point transforms as rot * p + trans. -/
@[ext]
structure RigidTr where
  rot : Matrix (Fin 3) (Fin 3) ℝ
  trans : Fin 3 → ℝ

/-- TGeoHMatrix composition: (A.comp B) applies B first. -/
def RigidTr.comp (A B : RigidTr) : RigidTr :=
  ⟨A.rot * B.rot, A.rot.mulVec B.trans + A.trans⟩

/-- Column j of a 3x3 matrix, as extracted by GetRotationMatrix in
CoordTransform::SetTpcRotations (src/src/coords.cpp lines 358-362). -/
def col3 (M : Matrix (Fin 3) (Fin 3) ℝ) (j : Fin 3) : Fin 3 → ℝ := fun i => M i j

/-- TVector3 dot product. -/
def dot3 (u v : Fin 3 → ℝ) : ℝ := u 0 * v 0 + u 1 * v 1 + u 2 * v 2

/-- TVector3 magnitude. -/
noncomputable def norm3 (v : Fin 3 → ℝ) : ℝ := Real.sqrt (dot3 v v)

/-- TVector3 cross product. -/
def cross3 (u v : Fin 3 → ℝ) : Fin 3 → ℝ :=
  ![u 1 * v 2 - u 2 * v 1, u 2 * v 0 - u 0 * v 2, u 0 * v 1 - u 1 * v 0]

/-- The first rotation column d, scaled to unit length (d *= 1./d.Mag() in
src/src/coords.cpp line 364). -/
noncomputable def normd (M : Matrix (Fin 3) (Fin 3) ℝ) : Fin 3 → ℝ :=
  (1 / norm3 (col3 M 0)) • col3 M 0

/-- The third rotation column t, scaled to unit length (src/src/coords.cpp
line 365). -/
noncomputable def normt (M : Matrix (Fin 3) (Fin 3) ℝ) : Fin 3 → ℝ :=
  (1 / norm3 (col3 M 2)) • col3 M 2

/-- The recomputed middle column: the cross product of the two normalized
columns, sign-flipped when it disagrees with the original middle column
(src/src/coords.cpp lines 367-369). -/
noncomputable def corrc (M : Matrix (Fin 3) (Fin 3) ℝ) : Fin 3 → ℝ :=
  if dot3 (cross3 (normd M) (normt M)) (col3 M 1) < 0
  then -(cross3 (normd M) (normt M))
  else cross3 (normd M) (normt M)

/-- The re-orthonormalization performed on every transform before storage
(src/src/coords.cpp lines 357-377): normalize the first and third rotation
columns, recompute the middle column as their cross product, flipping its
sign if it disagrees with the original middle column, and keep the
translation. -/
noncomputable def normalizeRT (M : RigidTr) : RigidTr :=
  ⟨Matrix.of fun i j => ![normd M.rot i, corrc M.rot i, normt M.rot i] j, M.trans⟩

/-- A rotation block with orthonormal columns. -/
def IsOrthonormal (M : Matrix (Fin 3) (Fin 3) ℝ) : Prop := M.transpose * M = 1

/-- TGeoRotation::RotateZ composes with this matrix (angle in degrees). -/
noncomputable def rotZdegM (a : ℝ) : Matrix (Fin 3) (Fin 3) ℝ :=
  !![Real.cos (a * Real.pi / 180), -Real.sin (a * Real.pi / 180), 0;
     Real.sin (a * Real.pi / 180),  Real.cos (a * Real.pi / 180), 0;
     0, 0, 1]

/-- TGeoRotation::RotateY composes with this matrix (angle in degrees). -/
noncomputable def rotYdegM (a : ℝ) : Matrix (Fin 3) (Fin 3) ℝ :=
  !![Real.cos (a * Real.pi / 180), 0, Real.sin (a * Real.pi / 180);
     0, 1, 0;
     -Real.sin (a * Real.pi / 180), 0, Real.cos (a * Real.pi / 180)]

/-- TGeoRotation::RotateX composes with this matrix (angle in degrees). -/
noncomputable def rotXdegM (a : ℝ) : Matrix (Fin 3) (Fin 3) ℝ :=
  !![1, 0, 0;
     0, Real.cos (a * Real.pi / 180), -Real.sin (a * Real.pi / 180);
     0, Real.sin (a * Real.pi / 180),  Real.cos (a * Real.pi / 180)]

/-- Calibration data consumed by CoordTransform::SetTpcRotations: the
tpcGlobalPosition angles and shifts, the drift-distance geometry constants,
and the pre-built per-sector alignment matrices supplied by the calibration
store (StTpcSuperSectorPosition, StTpcOuterSectorPosition), indexed by the
zero-based sector index used at the call sites. -/
structure GeoConfig where
  phiXZ : ℝ
  phiYZ : ℝ
  localxShift : ℝ
  localyShift : ℝ
  localzShift : ℝ
  outerSectorPadPlaneZ : ℝ
  outerSectorGatingGridPadSep : ℝ
  superSectorPosition : ℤ → RigidTr
  outerSectorPosition : ℤ → RigidTr

/-- The sector-0 entry of SetTpcRotations (src/src/coords.cpp lines
285-296): the Tpc-to-global transform from the three alignment angles
(phi fixed to 0) and the three shifts, normalized before storage. -/
noncomputable def tpc2global (g : GeoConfig) : RigidTr :=
  let phi : ℝ := 0
  let theta := g.phiXZ * 180 / Real.pi
  let psi := g.phiYZ * 180 / Real.pi
  normalizeRT ⟨rotZdegM (-phi) * (rotYdegM (-theta) * rotXdegM (-psi)),
               ![g.localxShift, g.localyShift, g.localzShift]⟩

/-- The flip_matrix of SetTpcRotations (src/src/coords.cpp lines 268-272):
swap x and y and negate z, no translation. -/
noncomputable def flipRT : RigidTr := ⟨!![0, 1, 0; 1, 0, 0; 0, 0, -1], 0⟩

/-- The rotation set by SetAngles(90, 0, 90, -90, 180, 0) for sectors
13..24 (src/src/coords.cpp line 311): (x, y, z) goes to (x, -y, -z). -/
noncomputable def flipXmyz : Matrix (Fin 3) (Fin 3) ℝ := !![1, 0, 0; 0, -1, 0; 0, 0, -1]

/-- TGeoTranslation(0, 0, z) as a rigid transform. -/
noncomputable def transZRT (z : ℝ) : RigidTr := ⟨1, ![0, 0, z]⟩

/-- drift_dist_z of the kSupS2Tpc case (src/src/coords.cpp lines 307-309). -/
noncomputable def driftDistZ (g : GeoConfig) : ℝ :=
  g.outerSectorPadPlaneZ - g.outerSectorGatingGridPadSep

/-- The stored kSupS2Tpc entry (src/src/coords.cpp lines 301-321): sector
phi angle, drift translation (both flipped for sectors 13..24, where the
extra (x,-y,-z) rotation is applied first), composed with the super-sector
alignment matrix and normalized. -/
noncomputable def supS2Tpc (g : GeoConfig) (sector : ℤ) : RigidTr :=
  let iphi : ℤ := if sector > 12 then (90 + 30 * (sector - 12)) % 360
                  else (360 + 90 - 30 * sector) % 360
  let drift_dist_z := if sector > 12 then -(driftDistZ g) else driftDistZ g
  let rotm : Matrix (Fin 3) (Fin 3) ℝ :=
    if sector > 12 then rotZdegM (iphi : ℝ) * flipXmyz else rotZdegM (iphi : ℝ) * 1
  normalizeRT (((transZRT drift_dist_z).comp ⟨rotm, 0⟩).comp
    (g.superSectorPosition (sector - 1)))

/-- The stored kSupS2Glob entry (src/src/coords.cpp line 325). -/
noncomputable def supS2Glob (g : GeoConfig) (sector : ℤ) : RigidTr :=
  normalizeRT ((tpc2global g).comp (supS2Tpc g sector))

/-- The stored kSubSInner2SupS entry (src/src/coords.cpp line 329). -/
noncomputable def subSInner2SupS (g : GeoConfig) (sector : ℤ) : RigidTr :=
  normalizeRT flipRT

/-- The stored kSubSOuter2SupS entry (src/src/coords.cpp line 333). -/
noncomputable def subSOuter2SupS (g : GeoConfig) (sector : ℤ) : RigidTr :=
  normalizeRT (flipRT.comp (g.outerSectorPosition (sector - 1)))

/-- The stored kSubSInner2Tpc entry (src/src/coords.cpp line 337). -/
noncomputable def subSInner2Tpc (g : GeoConfig) (sector : ℤ) : RigidTr :=
  normalizeRT ((supS2Tpc g sector).comp (subSInner2SupS g sector))

/-- The stored kSubSOuter2Tpc entry (src/src/coords.cpp line 338). -/
noncomputable def subSOuter2Tpc (g : GeoConfig) (sector : ℤ) : RigidTr :=
  normalizeRT ((supS2Tpc g sector).comp (subSOuter2SupS g sector))

/-- The stored kSubSInner2Glob entry (src/src/coords.cpp line 340). -/
noncomputable def subSInner2Glob (g : GeoConfig) (sector : ℤ) : RigidTr :=
  normalizeRT ((tpc2global g).comp (subSInner2Tpc g sector))

/-- The stored kSubSOuter2Glob entry (src/src/coords.cpp line 341). -/
noncomputable def subSOuter2Glob (g : GeoConfig) (sector : ℤ) : RigidTr :=
  normalizeRT ((tpc2global g).comp (subSOuter2Tpc g sector))

/-- The stored kPadInner2SupS entry (src/src/coords.cpp line 343). -/
noncomputable def padInner2SupS (g : GeoConfig) (sector : ℤ) : RigidTr :=
  normalizeRT (subSInner2SupS g sector)

/-- The stored kPadOuter2SupS entry (src/src/coords.cpp line 344). -/
noncomputable def padOuter2SupS (g : GeoConfig) (sector : ℤ) : RigidTr :=
  normalizeRT (subSOuter2SupS g sector)

/-- The stored kPadInner2Tpc entry (src/src/coords.cpp line 346). -/
noncomputable def padInner2Tpc (g : GeoConfig) (sector : ℤ) : RigidTr :=
  normalizeRT ((supS2Tpc g sector).comp (padInner2SupS g sector))

/-- The stored kPadOuter2Tpc entry (src/src/coords.cpp line 347). -/
noncomputable def padOuter2Tpc (g : GeoConfig) (sector : ℤ) : RigidTr :=
  normalizeRT ((supS2Tpc g sector).comp (padOuter2SupS g sector))

/-- The stored kPadInner2Glob entry (src/src/coords.cpp line 349). -/
noncomputable def padInner2Glob (g : GeoConfig) (sector : ℤ) : RigidTr :=
  normalizeRT ((tpc2global g).comp (padInner2Tpc g sector))

/-- The stored kPadOuter2Glob entry (src/src/coords.cpp line 350). -/
noncomputable def padOuter2Glob (g : GeoConfig) (sector : ℤ) : RigidTr :=
  normalizeRT ((tpc2global g).comp (padOuter2Tpc g sector))

/-- Concrete geometry fixture: all angles and shifts zero, identity
alignment matrices. -/
noncomputable def testGeo : GeoConfig where
  phiXZ := 0
  phiYZ := 0
  localxShift := 0
  localyShift := 0
  localzShift := 0
  outerSectorPadPlaneZ := 0
  outerSectorGatingGridPadSep := 0
  superSectorPosition := fun _ => ⟨1, 0⟩
  outerSectorPosition := fun _ => ⟨1, 0⟩

/-! ## Theorems -/

/-- C10: the result of YToRow does not depend on its sector argument: the
body of CoordTransform::YToRow never reads the sector parameter, so under
one configuration (one row count and one set of nominal row radii) any two
sectors give the same row. -/
theorem yToRow_sector_independent (cfg : TpcConfig) (y : ℚ) (s1 s2 : ℤ) :
    YToRow cfg y s1 = YToRow cfg y s2 := rfl

/-- C7: XToPad never returns a value below 0.500001: when the linear
formula (npads + 1)/2 - x/pitch (with the row clamped from above and the
pitch chosen by the inner/outer boundary, as in the source) is below
0.500001 the result is exactly 0.500001, and the result equals the formula
value otherwise. -/
theorem xToPad_lower_clamp (cfg : TpcConfig) (x : ℚ) (sector row : ℤ) :
    500001 / 1000000 ≤ XToPad cfg x sector row ∧
    (((cfg.numberOfPads (if row > cfg.padRows then cfg.padRows else row) : ℚ) + 1) / 2
        - x / (if (if row > cfg.padRows then cfg.padRows else row) ≤ cfg.innerPadRows
               then cfg.innerSectorPadPitch else cfg.outerSectorPadPitch)
        < 500001 / 1000000 →
      XToPad cfg x sector row = 500001 / 1000000) ∧
    (500001 / 1000000 ≤
      ((cfg.numberOfPads (if row > cfg.padRows then cfg.padRows else row) : ℚ) + 1) / 2
        - x / (if (if row > cfg.padRows then cfg.padRows else row) ≤ cfg.innerPadRows
               then cfg.innerSectorPadPitch else cfg.outerSectorPadPitch) →
      XToPad cfg x sector row =
        ((cfg.numberOfPads (if row > cfg.padRows then cfg.padRows else row) : ℚ) + 1) / 2
        - x / (if (if row > cfg.padRows then cfg.padRows else row) ≤ cfg.innerPadRows
               then cfg.innerSectorPadPitch else cfg.outerSectorPadPitch)) := by
  set F := ((cfg.numberOfPads (if row > cfg.padRows then cfg.padRows else row) : ℚ) + 1) / 2
      - x / (if (if row > cfg.padRows then cfg.padRows else row) ≤ cfg.innerPadRows
             then cfg.innerSectorPadPitch else cfg.outerSectorPadPitch) with hF
  have key : XToPad cfg x sector row = if F < 500001 / 1000000 then 500001 / 1000000 else F := by
    rw [hF]
    rfl
  refine ⟨?_, fun h => ?_, fun h => ?_⟩
  · rw [key]
    rcases lt_or_le F (500001 / 1000000) with h | h
    · rw [if_pos h]
    · rw [if_neg (not_lt.mpr h)]
      exact h
  · rw [key, if_pos h]
  · rw [key, if_neg (not_lt.mpr h)]

/-- C7 witness: at the concrete fixture, with x = 1, sector 1, row 1, the
formula value is 1 (not below the clamp), and the returned pad is the
formula value. -/
theorem xToPad_lower_clamp_witness : XToPad testCfg 1 1 1 =
    ((testCfg.numberOfPads (if (1:ℤ) > testCfg.padRows then testCfg.padRows else 1) : ℚ) + 1) / 2
      - 1 / (if (if (1:ℤ) > testCfg.padRows then testCfg.padRows else 1) ≤ testCfg.innerPadRows
             then testCfg.innerSectorPadPitch else testCfg.outerSectorPadPitch) :=
  (xToPad_lower_clamp testCfg 1 1 1).2.2 (by norm_num [testCfg])

/-- C2 counterexample: a row of 0 is below the configured range, but
ZToTime does not clamp it (only rows above padRows are clamped); the
per-sector per-row T0 read at index row - 1 = -1 is out of bounds and the
model returns no value, against the claim that every such call clamps the
row into range and returns a value normally. -/
theorem zToTime_row_zero_out_of_bounds : ZToTime testCfg 0 1 0 0 = none := by
  norm_num [ZToTime, t0Lookup, testCfg]

/-- C2 amended: rows above padRows are clamped to padRows in all four
scalar converters; for rows inside [1, padRows] covered by the T0 table the
time converters return a value; but rows below 1 are not clamped, and for
row <= 0 the T0 read at index row - 1 is out of bounds, so the time
converters return no value. -/
theorem rowClamp_amended (cfg : TpcConfig) (x z tb pad : ℚ) (sector row : ℤ) :
    (row > cfg.padRows →
      XToPad cfg x sector row = XToPad cfg x sector cfg.padRows ∧
      PadToX cfg sector row pad = PadToX cfg sector cfg.padRows pad ∧
      TimeToZ cfg tb sector row pad = TimeToZ cfg tb sector cfg.padRows pad ∧
      ZToTime cfg z sector row pad = ZToTime cfg z sector cfg.padRows pad) ∧
    (1 ≤ row → row ≤ cfg.padRows → row ≤ ((cfg.padrowT0 (sector - 1)).length : ℤ) →
      (TimeToZ cfg tb sector row pad).isSome ∧ (ZToTime cfg z sector row pad).isSome) ∧
    (row ≤ 0 → TimeToZ cfg tb sector row pad = none ∧ ZToTime cfg z sector row pad = none) := by
  refine ⟨fun h => ?_, fun h1 h2 h3 => ?_, fun h0 => ?_⟩
  · have e2 : (if row > cfg.padRows then cfg.padRows else row) = cfg.padRows := if_pos h
    have e3 : (if cfg.padRows > cfg.padRows then cfg.padRows else cfg.padRows) = cfg.padRows := by
      simp
    exact ⟨by simp only [XToPad, e2, e3], by simp only [PadToX, e2, e3],
           by simp only [TimeToZ, e2, e3], by simp only [ZToTime, e2, e3]⟩
  · have hcl : (if row > cfg.padRows then cfg.padRows else row) = row :=
      if_neg (by omega)
    have hlt : (row - 1).toNat < (cfg.padrowT0 (sector - 1)).length := by omega
    have ht : t0Lookup cfg sector row =
        some ((cfg.padrowT0 (sector - 1)).get ⟨(row - 1).toNat, hlt⟩) := by
      unfold t0Lookup
      rw [if_pos h1, List.get?_eq_get hlt]
    constructor
    · simp only [TimeToZ, hcl, ht, Option.isSome_some]
    · simp only [ZToTime, hcl, ht, Option.isSome_some]
  · have hcl2 : ¬ (1 ≤ (if row > cfg.padRows then cfg.padRows else row)) := by
      split_ifs with hh <;> omega
    have hn : t0Lookup cfg sector (if row > cfg.padRows then cfg.padRows else row) = none := by
      unfold t0Lookup
      rw [if_neg hcl2]
    constructor
    · simp only [TimeToZ, hn]
    · simp only [ZToTime, hn]

/-- C2 amended witness: at the concrete fixture, row 3 is clamped to
padRows = 2 in ZToTime, row 1 yields a value, and row 0 yields none. -/
theorem rowClamp_amended_witness :
    ZToTime testCfg 0 1 3 0 = ZToTime testCfg 0 1 testCfg.padRows 0 ∧
    (ZToTime testCfg 0 1 1 0).isSome ∧
    (TimeToZ testCfg 0 1 0 0 = none ∧ ZToTime testCfg 0 1 0 0 = none) :=
  ⟨((rowClamp_amended testCfg 0 0 0 0 1 3).1 (by decide)).2.2.2,
   ((rowClamp_amended testCfg 0 0 0 0 1 1).2.1 (by decide) (by decide) (by decide)).2,
   (rowClamp_amended testCfg 0 0 0 0 1 0).2.2 (by decide)⟩

/-- C3: evaluation of local_sector_to_hardware at a coordinate whose
supplied row 0 is out of range.  The row is re-derived via YToRow from
y = 2, giving row 2, and row 2 is stored in the result; but the pad stored
in the result is XToPad evaluated at the supplied row 0 (value 1), not at
the re-derived row 2 (value 3/2), contradicting the claim that every
scalar conversion, including the x-to-pad conversion, uses the re-derived
row. -/
theorem localSectorToHardware_pad_uses_supplied_row :
    YToRow testCfg 2 1 = 2 ∧
    local_sector_to_hardware testCfg testZo ⟨⟨1, 2, 0⟩, 1, 0⟩ = some ⟨1, 2, 1, 0⟩ ∧
    XToPad testCfg 1 1 0 = 1 ∧
    XToPad testCfg 1 1 2 = 3 / 2 := by
  have hy : YToRow testCfg 2 1 = 2 := by
    have hr : radiiList testCfg = [1/2, 3/2, 5/2] := by
      have h0 : List.range (testCfg.padRows.toNat + 1) = [0, 1, 2] := rfl
      rw [radiiList, h0]
      norm_num [radiusBoundary, testCfg]
    have hidx : List.findIdx (fun r => decide ((2:ℚ) ≤ r)) [1/2, 3/2, 5/2] = 2 := by
      norm_num [List.findIdx_cons]
    simp only [YToRow, hr, hidx]
    norm_num [testCfg]
  have hx : XToPad testCfg 1 1 0 = 1 := by norm_num [XToPad, testCfg]
  have hmain : local_sector_to_hardware testCfg testZo ⟨⟨1, 2, 0⟩, 1, 0⟩ = some ⟨1, 2, 1, 0⟩ := by
    have hz : ZToTime testCfg (0 + testZo.zOuterOffset) 1 2 1 = some 0 := by
      norm_num [ZToTime, t0Lookup, testCfg, testZo, timebinWidth]
    simp only [local_sector_to_hardware, hy, hx]
    norm_num [testCfg, testZo] at hz ⊢
    simp [hz]
  exact ⟨hy, hmain, hx, by norm_num [XToPad, testCfg]⟩

/-- C1: round trips of the scalar converters, exactly, in the exact
arithmetic of the model.  For a sector in 1..24, a row in [1, padRows], and
a pad value between 0.500001 and the row's pad count, XToPad inverts
PadToX when the selected pad pitch is nonzero; and ZToTime inverts TimeToZ
for every time bucket when the drift velocity (and the time bin width) is
nonzero and the T0 table covers the row. -/
theorem padTimeRoundTrip (cfg : TpcConfig) (sector row : ℤ)
    (hs1 : 1 ≤ sector) (hs2 : sector ≤ 24) (hr1 : 1 ≤ row) (hr2 : row ≤ cfg.padRows)
    (hpi : cfg.innerSectorPadPitch ≠ 0) (hpo : cfg.outerSectorPadPitch ≠ 0) :
    (∀ p : ℚ, 500001 / 1000000 ≤ p → p ≤ (cfg.numberOfPads row : ℚ) →
      XToPad cfg (PadToX cfg sector row p) sector row = p) ∧
    (∀ tb pad : ℚ, cfg.driftVelocity sector ≠ 0 → timebinWidth cfg ≠ 0 →
      row ≤ ((cfg.padrowT0 (sector - 1)).length : ℤ) →
      (TimeToZ cfg tb sector row pad).bind (fun z => ZToTime cfg z sector row pad) = some tb) := by
  have hcl : (if row > cfg.padRows then cfg.padRows else row) = row := if_neg (by omega)
  constructor
  · intro p hp hpn
    have hval : ((cfg.numberOfPads row : ℚ) + 1) / 2 - PadToX cfg sector row p /
        (if row ≤ cfg.innerPadRows then cfg.innerSectorPadPitch
         else cfg.outerSectorPadPitch) = p := by
      simp only [PadToX, hcl]
      split_ifs with h
      · field_simp
        ring
      · field_simp
        ring
    have kx : XToPad cfg (PadToX cfg sector row p) sector row =
        if p < 500001 / 1000000 then 500001 / 1000000 else p := by
      simp only [XToPad, hcl, hval]
    rw [kx, if_neg (not_lt.mpr hp)]
  · intro tb pad hdv htbw hlen
    have hlt : (row - 1).toNat < (cfg.padrowT0 (sector - 1)).length := by omega
    have ht : t0Lookup cfg sector row =
        some ((cfg.padrowT0 (sector - 1)).get ⟨(row - 1).toNat, hlt⟩) := by
      unfold t0Lookup
      rw [if_pos hr1, List.get?_eq_get hlt]
    simp only [TimeToZ, ZToTime, hcl, ht, Option.some_bind, Option.some.injEq]
    field_simp

/-- C1 witness: at the concrete fixture, sector 1, row 1, pad 1 round-trips
through PadToX/XToPad, and time bucket 0 round-trips through
TimeToZ/ZToTime. -/
theorem padTimeRoundTrip_witness :
    XToPad testCfg (PadToX testCfg 1 1 1) 1 1 = 1 ∧
    (TimeToZ testCfg 0 1 1 0).bind (fun z => ZToTime testCfg z 1 1 0) = some 0 :=
  ⟨(padTimeRoundTrip testCfg 1 1 (by decide) (by decide) (by decide) (by decide)
      (by norm_num [testCfg]) (by norm_num [testCfg])).1 1 (by norm_num)
      (by norm_num [testCfg]),
   (padTimeRoundTrip testCfg 1 1 (by decide) (by decide) (by decide) (by decide)
      (by norm_num [testCfg]) (by norm_num [testCfg])).2 0 0 (by norm_num [testCfg])
      (by norm_num [timebinWidth, testCfg]) (by decide)⟩

/-- A weaker predicate is found no later: if every element satisfying q
also satisfies p, the first index satisfying p is at most the first index
satisfying q. -/
theorem findIdx_le_findIdx_of_imp {α : Type} (l : List α) (p q : α → Bool)
    (h : ∀ a, q a = true → p a = true) : l.findIdx p ≤ l.findIdx q := by
  induction l with
  | nil => exact le_refl _
  | cons a l ih =>
    rw [List.findIdx_cons, List.findIdx_cons]
    cases hp : p a
    · have hq : q a = false := by
        cases hq : q a
        · rfl
        · rw [h a hq] at hp
          exact absurd hp (by simp)
      simp only [hq, cond_false]
      exact Nat.succ_le_succ ih
    · simp

/-- If a predicate is false on every element up to index i, the first index
satisfying it is beyond i. -/
theorem lt_findIdx_of_prefix_false {α : Type} (q : α → Bool) (l : List α) (i : ℕ)
    (hi : i < l.length)
    (hall : ∀ j (hj : j < l.length), j ≤ i → q (l.get ⟨j, hj⟩) = false) :
    i < l.findIdx q := by
  induction l generalizing i with
  | nil => simp at hi
  | cons a l ih =>
    have hqa : q a = false := hall 0 (by simp) (Nat.zero_le _)
    rw [List.findIdx_cons, hqa]
    simp only [cond_false]
    cases i with
    | zero => exact Nat.succ_pos _
    | succ i =>
      have hlt : i < l.findIdx q := by
        refine ih i (by simpa using hi) (fun j hj hji => ?_)
        exact hall (j + 1) (by simpa using hj) (by omega)
      omega

/-- C6: YToRow is monotone in y, and its result always lies in
[1, padRows].  The monotonicity hypotheses mirror the claim: at least one
configured row, and strictly increasing nominal row radii (under which the
boundary array is sorted, so the lower-bound model coincides with
std::lower_bound); the monotonicity of the lookup itself holds for the
first-index-at-least-y model on any boundary array. -/
theorem yToRow_mono_and_range (cfg : TpcConfig) (hN : 1 ≤ cfg.padRows)
    (hmono : ∀ i : ℤ, 1 ≤ i → i < cfg.padRows →
      cfg.radialDistanceAtRow i < cfg.radialDistanceAtRow (i + 1)) :
    (∀ y1 y2 : ℚ, ∀ s : ℤ, y1 < y2 → YToRow cfg y1 s ≤ YToRow cfg y2 s) ∧
    (∀ y : ℚ, ∀ s : ℤ, 1 ≤ YToRow cfg y s ∧ YToRow cfg y s ≤ cfg.padRows) := by
  have key : ∀ z1 z2 : ℤ, z1 ≤ z2 →
      (if (if z1 ≤ 0 then 1 else z1) > cfg.padRows then cfg.padRows
       else (if z1 ≤ 0 then 1 else z1)) ≤
      (if (if z2 ≤ 0 then 1 else z2) > cfg.padRows then cfg.padRows
       else (if z2 ≤ 0 then 1 else z2)) := by
    intro z1 z2 hz
    split_ifs <;> omega
  constructor
  · intro y1 y2 s h
    set l := radiiList cfg with hl
    set i1 := l.findIdx fun r => decide (y1 ≤ r) with hi1
    set i2 := l.findIdx fun r => decide (y2 ≤ r) with hi2
    have hA : i1 ≤ i2 := by
      rw [hi1, hi2]
      refine findIdx_le_findIdx_of_imp l _ _ (fun a ha => ?_)
      simp only [decide_eq_true_eq] at ha ⊢
      linarith
    have hB : (if l.get? i1 = some y1 then (i1 : ℤ) + 1 else (i1 : ℤ)) ≤
              (if l.get? i2 = some y2 then (i2 : ℤ) + 1 else (i2 : ℤ)) := by
      split_ifs with hg1 hg2
      · omega
      · obtain ⟨hlen, hget⟩ := List.get?_eq_some.mp hg1
        have hstrict : i1 < i2 := by
          rw [hi2]
          refine lt_findIdx_of_prefix_false _ l i1 hlen (fun j hj hji => ?_)
          rcases lt_or_eq_of_le hji with hlt | heq
          · have hf := List.not_of_lt_findIdx
              (show j < List.findIdx (fun r => decide (y1 ≤ r)) l from hlt)
            rw [List.get_eq_getElem]
            simp only [decide_eq_false_iff_not, not_le] at hf ⊢
            linarith
          · have hgy : l.get ⟨j, hj⟩ = y1 := by
              subst heq
              exact hget
            rw [hgy]
            simp only [decide_eq_false_iff_not, not_le]
            exact h
        omega
      · omega
      · exact_mod_cast hA
    exact key _ _ hB
  · intro y s
    have key2 : ∀ z : ℤ,
        1 ≤ (if (if z ≤ 0 then 1 else z) > cfg.padRows then cfg.padRows
             else (if z ≤ 0 then 1 else z)) ∧
        (if (if z ≤ 0 then 1 else z) > cfg.padRows then cfg.padRows
         else (if z ≤ 0 then 1 else z)) ≤ cfg.padRows := by
      intro z
      constructor <;> (split_ifs <;> omega)
    exact key2 _

/-- C6 witness: at the concrete fixture (radius of row i equal to i), the
row at y = 1 is at most the row at y = 2, and the row at y = 7 lies in
[1, 2]. -/
theorem yToRow_mono_and_range_witness :
    YToRow testCfg 1 1 ≤ YToRow testCfg 2 1 ∧
    (1 ≤ YToRow testCfg 7 3 ∧ YToRow testCfg 7 3 ≤ testCfg.padRows) :=
  ⟨(yToRow_mono_and_range testCfg (by decide)
      (fun i h1 h2 => by simp only [testCfg]; push_cast; linarith)).1 1 2 1 (by norm_num),
   (yToRow_mono_and_range testCfg (by decide)
      (fun i h1 h2 => by simp only [testCfg]; push_cast; linarith)).2 7 3⟩

/-- C8: StHelix::bad returns 0 exactly when every precondition holds, and
otherwise the distinct nonzero code of the first violated check in source
order: 11 for a non-finite dip angle, 12 for a non-finite curvature,
3 + 100k for an invalid origin with delegated sub-code k, 21 for
|dipAngle| > 1.58, 31 for | |dipAngle| - pi/2 | below 1/worldSize, 22 for
|curvature| > worldSize, 32 for negative curvature, and 24 for a
handedness other than +-1; the model is a total function, so no exception
is possible. -/
theorem helixBad_codes (st : HelixBadInput) (W : ℚ) :
    (helixBad st W = 0 ↔
      st.dipAngle.isSome ∧ st.curvature.isSome ∧ st.originErr = 0 ∧
      (∀ d, st.dipAngle = some d → |d| ≤ 158 / 100 ∧ ¬ |(|d| - mPiQ / 2)| < 1 / W) ∧
      (∀ c, st.curvature = some c → |c| ≤ W ∧ 0 ≤ c) ∧
      |st.h| = 1) ∧
    (st.dipAngle = none → helixBad st W = 11) ∧
    (∀ d, st.dipAngle = some d → st.curvature = none → helixBad st W = 12) ∧
    (∀ d c, st.dipAngle = some d → st.curvature = some c → st.originErr ≠ 0 →
      helixBad st W = 3 + st.originErr * 100) ∧
    (∀ d c, st.dipAngle = some d → st.curvature = some c → st.originErr = 0 →
      |d| > 158 / 100 → helixBad st W = 21) ∧
    (∀ d c, st.dipAngle = some d → st.curvature = some c → st.originErr = 0 →
      |d| ≤ 158 / 100 → |(|d| - mPiQ / 2)| < 1 / W → helixBad st W = 31) ∧
    (∀ d c, st.dipAngle = some d → st.curvature = some c → st.originErr = 0 →
      |d| ≤ 158 / 100 → ¬ |(|d| - mPiQ / 2)| < 1 / W → |c| > W → helixBad st W = 22) ∧
    (∀ d c, st.dipAngle = some d → st.curvature = some c → st.originErr = 0 →
      |d| ≤ 158 / 100 → ¬ |(|d| - mPiQ / 2)| < 1 / W → |c| ≤ W → c < 0 →
      helixBad st W = 32) ∧
    (∀ d c, st.dipAngle = some d → st.curvature = some c → st.originErr = 0 →
      |d| ≤ 158 / 100 → ¬ |(|d| - mPiQ / 2)| < 1 / W → |c| ≤ W → 0 ≤ c → |st.h| ≠ 1 →
      helixBad st W = 24) := by
  rcases st with ⟨dip, curv, oe, hh⟩
  refine ⟨?_, ?_, ?_, ?_, ?_, ?_, ?_, ?_, ?_⟩
  · constructor
    · intro h0
      cases dip with
      | none => simp [helixBad] at h0
      | some d =>
        cases curv with
        | none => simp [helixBad] at h0
        | some c =>
          simp only [helixBad] at h0
          split_ifs at h0 with g1 g2 g3 g4 g5 g6
          · omega
          · omega
          · omega
          · omega
          · omega
          · omega
          · push_neg at g1 g2 g3 g4 g5 g6
            refine ⟨by simp, by simp, g1, ?_, ?_, g6⟩
            · intro d1 hd1
              injection hd1 with e
              subst e
              exact ⟨g2, not_lt.mpr g3⟩
            · intro c1 hc1
              injection hc1 with e
              subst e
              exact ⟨g4, g5⟩
    · rintro ⟨h1, h2, hoe, hd, hc, hhh⟩
      cases dip with
      | none => simp at h1
      | some d =>
        cases curv with
        | none => simp at h2
        | some c =>
          obtain ⟨hd1, hd2⟩ := hd d rfl
          obtain ⟨hc1, hc2⟩ := hc c rfl
          simp only [helixBad]
          rw [if_neg (by simp [show oe = 0 from hoe]), if_neg (not_lt.mpr hd1), if_neg hd2,
              if_neg (not_lt.mpr hc1), if_neg (not_lt.mpr hc2),
              if_neg (not_ne_iff.mpr hhh)]
  · intro hdip
    subst hdip
    rfl
  · intro d hdip hcurv
    subst hdip
    subst hcurv
    rfl
  · intro d c hdip hcurv hoe
    subst hdip
    subst hcurv
    simp only [helixBad]
    rw [if_pos hoe]
  · intro d c hdip hcurv hoe h21
    subst hdip
    subst hcurv
    simp only [helixBad]
    rw [if_neg (by simp [show oe = 0 from hoe]), if_pos h21]
  · intro d c hdip hcurv hoe h2 h31
    subst hdip
    subst hcurv
    simp only [helixBad]
    rw [if_neg (by simp [show oe = 0 from hoe]), if_neg (not_lt.mpr h2), if_pos h31]
  · intro d c hdip hcurv hoe h2 h3 h22
    subst hdip
    subst hcurv
    simp only [helixBad]
    rw [if_neg (by simp [show oe = 0 from hoe]), if_neg (not_lt.mpr h2), if_neg h3, if_pos h22]
  · intro d c hdip hcurv hoe h2 h3 h4 h32
    subst hdip
    subst hcurv
    simp only [helixBad]
    rw [if_neg (by simp [show oe = 0 from hoe]), if_neg (not_lt.mpr h2), if_neg h3,
        if_neg (not_lt.mpr h4), if_pos h32]
  · intro d c hdip hcurv hoe h2 h3 h4 h5 h24
    subst hdip
    subst hcurv
    simp only [helixBad]
    rw [if_neg (by simp [show oe = 0 from hoe]), if_neg (not_lt.mpr h2), if_neg h3,
        if_neg (not_lt.mpr h4), if_neg (not_lt.mpr h5), if_pos h24]

/-- C8 witness: a non-finite dip angle yields code 11, and a zero-dip,
zero-curvature, valid-origin, handedness +1 input yields code 0. -/
theorem helixBad_codes_witness :
    helixBad ⟨none, some 0, 0, 1⟩ 100000 = 11 ∧
    helixBad ⟨some 0, some 0, 0, 1⟩ 100000 = 0 :=
  ⟨(helixBad_codes ⟨none, some 0, 0, 1⟩ 100000).2.1 rfl,
   (helixBad_codes ⟨some 0, some 0, 0, 1⟩ 100000).1.mpr
     ⟨by simp, by simp, rfl,
      fun d hd => by
        injection hd with e
        subst e
        refine ⟨by norm_num, ?_⟩
        simp only [abs_zero, zero_sub, abs_neg]
        rw [abs_of_nonneg (by norm_num [mPiQ] : (0:ℚ) ≤ mPiQ / 2)]
        norm_num [mPiQ],
      fun c hc => by
        injection hc with e
        subst e
        constructor <;> norm_num,
      by decide⟩⟩

/-- C9: for a helix whose cached trigonometric fields agree with its phase
(cosPhase = cos(phase), sinPhase = sin(phase)), at(0) equals the origin
exactly, in the singular branch and in the non-singular branch alike (the
curvature division vanishes on an exact zero numerator). -/
theorem helix_at_zero_eq_origin (hx : StHelix)
    (hc : hx.mCosPhase = Real.cos hx.mPhase) (hs : hx.mSinPhase = Real.sin hx.mPhase) :
    hx.atS 0 = hx.mOrigin := by
  unfold StHelix.atS StHelix.xAt StHelix.yAt StHelix.zAt
  cases hb : hx.mSingularity
  · simp only [hb, Bool.false_eq_true, if_false, zero_mul, add_zero, ← hc, ← hs,
      sub_self, zero_div]
  · simp only [hb, if_true, zero_mul, mul_zero, sub_zero, add_zero]

/-- C9 witness: a concrete non-singular helix with phase 0 and consistent
cached fields has at(0) equal to its origin. -/
theorem helix_at_zero_eq_origin_witness :
    StHelix.atS ⟨false, ⟨0, 0, 0⟩, 0, 1, 0, -1, 1, 0, 1, 0⟩ 0 = ⟨0, 0, 0⟩ :=
  helix_at_zero_eq_origin ⟨false, ⟨0, 0, 0⟩, 0, 1, 0, -1, 1, 0, 1, 0⟩ (by simp) (by simp)


/-- Orthonormal columns: the pairwise dot products of the columns are the Kronecker delta. -/
theorem isOrtho_dots {M : Matrix (Fin 3) (Fin 3) ℝ} (h : IsOrthonormal M) (j k : Fin 3) :
    dot3 (col3 M j) (col3 M k) = if j = k then 1 else 0 := by
  have e : (M.transpose * M) j k = (1 : Matrix (Fin 3) (Fin 3) ℝ) j k := by rw [h]
  simpa [Matrix.mul_apply, Matrix.transpose_apply, Matrix.one_apply, Fin.sum_univ_three,
    dot3, col3] using e

/-- Orthonormal columns imply orthonormal rows (the outer-product resolution of the identity). -/
theorem isOrtho_rows {M : Matrix (Fin 3) (Fin 3) ℝ} (h : IsOrthonormal M) (i k : Fin 3) :
    col3 M 0 i * col3 M 0 k + col3 M 1 i * col3 M 1 k + col3 M 2 i * col3 M 2 k =
      if i = k then 1 else 0 := by
  have h2 : M * M.transpose = 1 := Matrix.mul_eq_one_comm.mp h
  have e : (M * M.transpose) i k = (1 : Matrix (Fin 3) (Fin 3) ℝ) i k := by rw [h2]
  simpa [Matrix.mul_apply, Matrix.transpose_apply, Matrix.one_apply, Fin.sum_univ_three,
    col3] using e

/-- The re-orthonormalization of SetTpcRotations is the identity on a transform whose rotation block is already orthonormal: the two normalized columns are unchanged, and the sign-corrected cross product reproduces the middle column in either orientation. -/
theorem normalizeRT_eq_self (A : RigidTr) (h : IsOrthonormal A.rot) :
    normalizeRT A = A := by
  have hdd : dot3 (col3 A.rot 0) (col3 A.rot 0) = 1 := by simpa using isOrtho_dots h 0 0
  have hnn : dot3 (col3 A.rot 1) (col3 A.rot 1) = 1 := by simpa using isOrtho_dots h 1 1
  have htt : dot3 (col3 A.rot 2) (col3 A.rot 2) = 1 := by simpa using isOrtho_dots h 2 2
  have hdt : dot3 (col3 A.rot 0) (col3 A.rot 2) = 0 := by simpa using isOrtho_dots h 0 2
  have hd : normd A.rot = col3 A.rot 0 := by
    rw [normd, norm3, hdd, Real.sqrt_one]
    simp
  have ht : normt A.rot = col3 A.rot 2 := by
    rw [normt, norm3, htt, Real.sqrt_one]
    simp
  set d := col3 A.rot 0 with hd_def
  set n := col3 A.rot 1 with hn_def
  set t := col3 A.rot 2 with ht_def
  have r00 : d 0 * d 0 + n 0 * n 0 + t 0 * t 0 = 1 := by simpa using isOrtho_rows h 0 0
  have r01 : d 0 * d 1 + n 0 * n 1 + t 0 * t 1 = 0 := by simpa using isOrtho_rows h 0 1
  have r02 : d 0 * d 2 + n 0 * n 2 + t 0 * t 2 = 0 := by simpa using isOrtho_rows h 0 2
  have r11 : d 1 * d 1 + n 1 * n 1 + t 1 * t 1 = 1 := by simpa using isOrtho_rows h 1 1
  have r12 : d 1 * d 2 + n 1 * n 2 + t 1 * t 2 = 0 := by simpa using isOrtho_rows h 1 2
  have r22 : d 2 * d 2 + n 2 * n 2 + t 2 * t 2 = 1 := by simpa using isOrtho_rows h 2 2
  have e1 : cross3 d t 0 = d 1 * t 2 - d 2 * t 1 := rfl
  have e2 : cross3 d t 1 = d 2 * t 0 - d 0 * t 2 := rfl
  have e3 : cross3 d t 2 = d 0 * t 1 - d 1 * t 0 := rfl
  have hlam : dot3 (cross3 d t) n =
      (d 1 * t 2 - d 2 * t 1) * n 0 + (d 2 * t 0 - d 0 * t 2) * n 1 +
        (d 0 * t 1 - d 1 * t 0) * n 2 := by
    rw [dot3, e1, e2, e3]
  have hc0 : cross3 d t 0 = dot3 (cross3 d t) n * n 0 := by
    rw [hlam, e1]
    linear_combination (-(d 1 * t 2 - d 2 * t 1)) * r00 + (-(d 2 * t 0 - d 0 * t 2)) * r01 +
      (-(d 0 * t 1 - d 1 * t 0)) * r02
  have hc1 : cross3 d t 1 = dot3 (cross3 d t) n * n 1 := by
    rw [hlam, e2]
    linear_combination (-(d 1 * t 2 - d 2 * t 1)) * r01 + (-(d 2 * t 0 - d 0 * t 2)) * r11 +
      (-(d 0 * t 1 - d 1 * t 0)) * r12
  have hc2 : cross3 d t 2 = dot3 (cross3 d t) n * n 2 := by
    rw [hlam, e3]
    linear_combination (-(d 1 * t 2 - d 2 * t 1)) * r02 + (-(d 2 * t 0 - d 0 * t 2)) * r12 +
      (-(d 0 * t 1 - d 1 * t 0)) * r22
  have hcc : dot3 (cross3 d t) (cross3 d t) = 1 := by
    have hlag : dot3 (cross3 d t) (cross3 d t) =
        dot3 d d * dot3 t t - dot3 d t * dot3 d t := by
      rw [dot3, e1, e2, e3]
      rw [show dot3 d d = d 0 * d 0 + d 1 * d 1 + d 2 * d 2 from rfl,
          show dot3 t t = t 0 * t 0 + t 1 * t 1 + t 2 * t 2 from rfl,
          show dot3 d t = d 0 * t 0 + d 1 * t 1 + d 2 * t 2 from rfl]
      ring
    rw [hlag, hdd, htt, hdt]
    ring
  have hlam2 : dot3 (cross3 d t) n * dot3 (cross3 d t) n = 1 := by
    have e : dot3 (cross3 d t) (cross3 d t) =
        dot3 (cross3 d t) n * dot3 (cross3 d t) n * dot3 n n := by
      rw [show dot3 (cross3 d t) (cross3 d t) =
            cross3 d t 0 * cross3 d t 0 + cross3 d t 1 * cross3 d t 1 +
              cross3 d t 2 * cross3 d t 2 from rfl,
          hc0, hc1, hc2,
          show dot3 n n = n 0 * n 0 + n 1 * n 1 + n 2 * n 2 from rfl]
      ring
    rw [hcc, hnn] at e
    linarith
  have hlam_cases : dot3 (cross3 d t) n = 1 ∨ dot3 (cross3 d t) n = -1 := by
    have hfact : (dot3 (cross3 d t) n - 1) * (dot3 (cross3 d t) n + 1) = 0 := by
      linear_combination hlam2
    rcases mul_eq_zero.mp hfact with h1 | h1
    · left
      linarith
    · right
      linarith
  have hcorr : corrc A.rot = n := by
    rw [corrc, hd, ht, ← hn_def]
    rcases hlam_cases with hl | hl
    · rw [if_neg (by rw [hl]; norm_num)]
      funext i
      fin_cases i
      · show cross3 d t 0 = n 0
        rw [hc0, hl]
        ring
      · show cross3 d t 1 = n 1
        rw [hc1, hl]
        ring
      · show cross3 d t 2 = n 2
        rw [hc2, hl]
        ring
    · rw [if_pos (by rw [hl]; norm_num)]
      funext i
      fin_cases i
      · show -(cross3 d t 0) = n 0
        rw [hc0, hl]
        ring
      · show -(cross3 d t 1) = n 1
        rw [hc1, hl]
        ring
      · show -(cross3 d t 2) = n 2
        rw [hc2, hl]
        ring
  refine RigidTr.ext ?_ rfl
  show Matrix.of (fun i j => ![normd A.rot i, corrc A.rot i, normt A.rot i] j) = A.rot
  rw [hd, ht, hcorr]
  funext i j
  fin_cases j
  · show d i = A.rot i 0
    rw [hd_def]
    rfl
  · show n i = A.rot i 1
    rw [hn_def]
    rfl
  · show t i = A.rot i 2
    rw [ht_def]
    rfl

/-- The stored rotation block of a normalized already-orthonormal transform is orthonormal. -/
theorem normalizeRT_rot_ortho (A : RigidTr) (h : IsOrthonormal A.rot) :
    IsOrthonormal (normalizeRT A).rot := by
  rw [normalizeRT_eq_self A h]
  exact h

/-- The identity rotation is orthonormal. -/
theorem isOrtho_one : IsOrthonormal (1 : Matrix (Fin 3) (Fin 3) ℝ) := by
  unfold IsOrthonormal
  simp

/-- Orthonormality is closed under matrix product. -/
theorem isOrtho_mul {A B : Matrix (Fin 3) (Fin 3) ℝ}
    (hA : IsOrthonormal A) (hB : IsOrthonormal B) : IsOrthonormal (A * B) := by
  unfold IsOrthonormal at *
  rw [Matrix.transpose_mul, mul_assoc, ← mul_assoc A.transpose A B, hA, one_mul, hB]

/-- Transpose of a 3x3 literal matrix. -/
theorem mat3_transpose (a b c d e f g h i : ℝ) :
    (!![a, b, c; d, e, f; g, h, i]).transpose = !![a, d, g; b, e, h; c, f, i] := by
  rw [Matrix.eta_fin_three (!![a, b, c; d, e, f; g, h, i]).transpose]
  simp [Matrix.transpose_apply]

/-- A z-rotation-shaped matrix with cos/sin entries on the unit circle is orthonormal. -/
theorem isOrtho_rotZshape (c s : ℝ) (h : s ^ 2 + c ^ 2 = 1) :
    IsOrthonormal !![c, -s, 0; s, c, 0; 0, 0, 1] := by
  unfold IsOrthonormal
  rw [mat3_transpose, Matrix.mul_fin_three, Matrix.one_fin_three]
  ext i j
  fin_cases i <;> fin_cases j <;>
    simp [Matrix.vecHead, Matrix.vecTail] <;>
    first
      | ring1
      | linear_combination h
      | linear_combination -h

/-- A y-rotation-shaped matrix with cos/sin entries on the unit circle is orthonormal. -/
theorem isOrtho_rotYshape (c s : ℝ) (h : s ^ 2 + c ^ 2 = 1) :
    IsOrthonormal !![c, 0, s; 0, 1, 0; -s, 0, c] := by
  unfold IsOrthonormal
  rw [mat3_transpose, Matrix.mul_fin_three, Matrix.one_fin_three]
  ext i j
  fin_cases i <;> fin_cases j <;>
    simp [Matrix.vecHead, Matrix.vecTail] <;>
    first
      | ring1
      | linear_combination h
      | linear_combination -h

/-- An x-rotation-shaped matrix with cos/sin entries on the unit circle is orthonormal. -/
theorem isOrtho_rotXshape (c s : ℝ) (h : s ^ 2 + c ^ 2 = 1) :
    IsOrthonormal !![1, 0, 0; 0, c, -s; 0, s, c] := by
  unfold IsOrthonormal
  rw [mat3_transpose, Matrix.mul_fin_three, Matrix.one_fin_three]
  ext i j
  fin_cases i <;> fin_cases j <;>
    simp [Matrix.vecHead, Matrix.vecTail] <;>
    first
      | ring1
      | linear_combination h
      | linear_combination -h

/-- RotateZ matrices are orthonormal. -/
theorem isOrtho_rotZdegM (a : ℝ) : IsOrthonormal (rotZdegM a) := by
  unfold rotZdegM
  exact isOrtho_rotZshape _ _ (Real.sin_sq_add_cos_sq _)

/-- RotateY matrices are orthonormal. -/
theorem isOrtho_rotYdegM (a : ℝ) : IsOrthonormal (rotYdegM a) := by
  unfold rotYdegM
  exact isOrtho_rotYshape _ _ (Real.sin_sq_add_cos_sq _)

/-- RotateX matrices are orthonormal. -/
theorem isOrtho_rotXdegM (a : ℝ) : IsOrthonormal (rotXdegM a) := by
  unfold rotXdegM
  exact isOrtho_rotXshape _ _ (Real.sin_sq_add_cos_sq _)

/-- The flip matrix is orthonormal. -/
theorem isOrtho_flipRT : IsOrthonormal flipRT.rot := by
  show (!![(0:ℝ), 1, 0; 1, 0, 0; 0, 0, -1]).transpose * !![(0:ℝ), 1, 0; 1, 0, 0; 0, 0, -1] = 1
  rw [mat3_transpose, Matrix.mul_fin_three, Matrix.one_fin_three]
  norm_num

/-- The (x,-y,-z) sector flip is orthonormal. -/
theorem isOrtho_flipXmyz : IsOrthonormal flipXmyz := by
  unfold IsOrthonormal flipXmyz
  rw [mat3_transpose, Matrix.mul_fin_three, Matrix.one_fin_three]
  norm_num

/-- Rotation block of a composition. -/
theorem comp_rot (A B : RigidTr) : (A.comp B).rot = A.rot * B.rot := rfl

/-- Rigid-transform composition is associative. -/
theorem comp_assoc (A B C : RigidTr) : (A.comp B).comp C = A.comp (B.comp C) := by
  refine RigidTr.ext ?_ ?_
  · show (A.rot * B.rot) * C.rot = A.rot * (B.rot * C.rot)
    exact mul_assoc _ _ _
  · show (A.rot * B.rot).mulVec C.trans + (A.rot.mulVec B.trans + A.trans) =
      A.rot.mulVec (B.rot.mulVec C.trans + B.trans) + A.trans
    rw [Matrix.mulVec_add, ← Matrix.mulVec_mulVec, add_assoc]

/-- A product of rotations with no translation splits as a composition. -/
theorem rt_mk_mul_split (R S : Matrix (Fin 3) (Fin 3) ℝ) :
    (⟨R * S, 0⟩ : RigidTr) = (⟨R, 0⟩ : RigidTr).comp ⟨S, 0⟩ := by
  refine RigidTr.ext rfl ?_
  show (0 : Fin 3 → ℝ) = R.mulVec 0 + 0
  rw [Matrix.mulVec_zero, add_zero]

/-- The stored Tpc-to-global rotation block is orthonormal. -/
theorem isOrtho_tpc2global (g : GeoConfig) : IsOrthonormal (tpc2global g).rot := by
  unfold tpc2global
  apply normalizeRT_rot_ortho
  exact isOrtho_mul (isOrtho_rotZdegM _) (isOrtho_mul (isOrtho_rotYdegM _) (isOrtho_rotXdegM _))

/-- Unfolding of the kSupS2Tpc entry for sectors 1..12. -/
theorem supS2Tpc_eq_le (g : GeoConfig) (s : ℤ) (hs : ¬ s > 12) :
    supS2Tpc g s = normalizeRT (((transZRT (driftDistZ g)).comp
      ⟨rotZdegM (((360 + 90 - 30 * s) % 360 : ℤ) : ℝ) * 1, 0⟩).comp
      (g.superSectorPosition (s - 1))) := by
  unfold supS2Tpc
  simp only [if_neg hs]

/-- Unfolding of the kSupS2Tpc entry for sectors 13..24. -/
theorem supS2Tpc_eq_gt (g : GeoConfig) (s : ℤ) (hs : s > 12) :
    supS2Tpc g s = normalizeRT (((transZRT (-(driftDistZ g))).comp
      ⟨rotZdegM (((90 + 30 * (s - 12)) % 360 : ℤ) : ℝ) * flipXmyz, 0⟩).comp
      (g.superSectorPosition (s - 1))) := by
  unfold supS2Tpc
  simp only [if_pos hs]

/-- The stored SupS-to-Tpc rotation block is orthonormal when the super-sector alignment matrix is. -/
theorem isOrtho_supS2Tpc (g : GeoConfig) (s : ℤ)
    (hssp : IsOrthonormal (g.superSectorPosition (s - 1)).rot) :
    IsOrthonormal (supS2Tpc g s).rot := by
  by_cases hs : s > 12
  · rw [supS2Tpc_eq_gt g s hs]
    apply normalizeRT_rot_ortho
    exact isOrtho_mul (isOrtho_mul isOrtho_one
      (isOrtho_mul (isOrtho_rotZdegM _) isOrtho_flipXmyz)) hssp
  · rw [supS2Tpc_eq_le g s hs]
    apply normalizeRT_rot_ortho
    exact isOrtho_mul (isOrtho_mul isOrtho_one
      (isOrtho_mul (isOrtho_rotZdegM _) isOrtho_one)) hssp

/-- The stored SubSInner-to-SupS entry is exactly the flip matrix. -/
theorem subSInner2SupS_eq (g : GeoConfig) (s : ℤ) : subSInner2SupS g s = flipRT := by
  unfold subSInner2SupS
  exact normalizeRT_eq_self _ isOrtho_flipRT

/-- The stored SubSOuter-to-SupS entry is exactly flip times the outer alignment, when the latter is orthonormal. -/
theorem subSOuter2SupS_eq (g : GeoConfig) (s : ℤ)
    (hosp : IsOrthonormal (g.outerSectorPosition (s - 1)).rot) :
    subSOuter2SupS g s = flipRT.comp (g.outerSectorPosition (s - 1)) := by
  unfold subSOuter2SupS
  exact normalizeRT_eq_self _ (isOrtho_mul isOrtho_flipRT hosp)

/-- C4: for every sector, with orthonormal calibration alignment matrices, every
stored composite-stage transform equals, exactly, the product of its stored
constituent stages: SubSInner2Tpc = SupS2Tpc * SubSInner2SupS, SubSOuter2Tpc =
SupS2Tpc * SubSOuter2SupS, SupS2Glob = Tpc2Global * SupS2Tpc, SubSInner2Glob =
Tpc2Global * SubSInner2Tpc = Tpc2Global * SupS2Tpc * SubSInner2SupS,
SubSOuter2Glob = Tpc2Global * SubSOuter2Tpc, PadInner2Tpc = SupS2Tpc *
PadInner2SupS and PadOuter2Tpc = SupS2Tpc * PadOuter2SupS; the
re-orthonormalization performed before storage is the identity here because
every operand is orthonormal.  Each stage is a single definition evaluated
once from the configuration, never recomputed. -/
theorem sectorTransformAlgebra (g : GeoConfig) (s : ℤ) (hs1 : 1 ≤ s) (hs2 : s ≤ 24)
    (hssp : IsOrthonormal (g.superSectorPosition (s - 1)).rot)
    (hosp : IsOrthonormal (g.outerSectorPosition (s - 1)).rot) :
    subSInner2Tpc g s = (supS2Tpc g s).comp (subSInner2SupS g s) ∧
    subSOuter2Tpc g s = (supS2Tpc g s).comp (subSOuter2SupS g s) ∧
    supS2Glob g s = (tpc2global g).comp (supS2Tpc g s) ∧
    subSInner2Glob g s = (tpc2global g).comp (subSInner2Tpc g s) ∧
    subSInner2Glob g s = ((tpc2global g).comp (supS2Tpc g s)).comp (subSInner2SupS g s) ∧
    subSOuter2Glob g s = (tpc2global g).comp (subSOuter2Tpc g s) ∧
    padInner2Tpc g s = (supS2Tpc g s).comp (padInner2SupS g s) ∧
    padOuter2Tpc g s = (supS2Tpc g s).comp (padOuter2SupS g s) := by
  have oT := isOrtho_tpc2global g
  have oS := isOrtho_supS2Tpc g s hssp
  have oI : IsOrthonormal (subSInner2SupS g s).rot := by
    rw [subSInner2SupS_eq]
    exact isOrtho_flipRT
  have oO : IsOrthonormal (subSOuter2SupS g s).rot := by
    rw [subSOuter2SupS_eq g s hosp]
    exact isOrtho_mul isOrtho_flipRT hosp
  have e1 : subSInner2Tpc g s = (supS2Tpc g s).comp (subSInner2SupS g s) :=
    normalizeRT_eq_self _ (isOrtho_mul oS oI)
  have e2 : subSOuter2Tpc g s = (supS2Tpc g s).comp (subSOuter2SupS g s) :=
    normalizeRT_eq_self _ (isOrtho_mul oS oO)
  have oIT : IsOrthonormal (subSInner2Tpc g s).rot := by
    rw [e1]
    exact isOrtho_mul oS oI
  have oOT : IsOrthonormal (subSOuter2Tpc g s).rot := by
    rw [e2]
    exact isOrtho_mul oS oO
  have e3 : supS2Glob g s = (tpc2global g).comp (supS2Tpc g s) :=
    normalizeRT_eq_self _ (isOrtho_mul oT oS)
  have e4 : subSInner2Glob g s = (tpc2global g).comp (subSInner2Tpc g s) :=
    normalizeRT_eq_self _ (isOrtho_mul oT oIT)
  have e5 : subSInner2Glob g s =
      ((tpc2global g).comp (supS2Tpc g s)).comp (subSInner2SupS g s) := by
    rw [e4, e1, ← comp_assoc]
  have e6 : subSOuter2Glob g s = (tpc2global g).comp (subSOuter2Tpc g s) :=
    normalizeRT_eq_self _ (isOrtho_mul oT oOT)
  have eP1 : padInner2SupS g s = subSInner2SupS g s :=
    normalizeRT_eq_self _ oI
  have oP1 : IsOrthonormal (padInner2SupS g s).rot := by
    rw [eP1]
    exact oI
  have eP2 : padOuter2SupS g s = subSOuter2SupS g s :=
    normalizeRT_eq_self _ oO
  have oP2 : IsOrthonormal (padOuter2SupS g s).rot := by
    rw [eP2]
    exact oO
  have e7 : padInner2Tpc g s = (supS2Tpc g s).comp (padInner2SupS g s) :=
    normalizeRT_eq_self _ (isOrtho_mul oS oP1)
  have e8 : padOuter2Tpc g s = (supS2Tpc g s).comp (padOuter2SupS g s) :=
    normalizeRT_eq_self _ (isOrtho_mul oS oP2)
  exact ⟨e1, e2, e3, e4, e5, e6, e7, e8⟩

/-- C5: the stored SupS-to-Tpc transform for sectors 1..12 is the composition of
the drift-distance z translation, the in-plane rotation by
(360 + 90 - 30 sector) mod 360 degrees, and the per-sector alignment matrix;
for sectors 13..24 the angle is (90 + 30 (sector - 12)) mod 360 degrees, the
(x,-y,-z) flip is applied before the rotation, and the drift translation
changes sign. -/
theorem supS2Tpc_structure (g : GeoConfig) (s : ℤ) :
    (1 ≤ s → s ≤ 12 → IsOrthonormal (g.superSectorPosition (s - 1)).rot →
      supS2Tpc g s = (transZRT (driftDistZ g)).comp
        ((⟨rotZdegM (((360 + 90 - 30 * s) % 360 : ℤ) : ℝ), 0⟩ : RigidTr).comp
          (g.superSectorPosition (s - 1)))) ∧
    (13 ≤ s → s ≤ 24 → IsOrthonormal (g.superSectorPosition (s - 1)).rot →
      supS2Tpc g s = (transZRT (-(driftDistZ g))).comp
        ((⟨rotZdegM (((90 + 30 * (s - 12)) % 360 : ℤ) : ℝ), 0⟩ : RigidTr).comp
          ((⟨flipXmyz, 0⟩ : RigidTr).comp (g.superSectorPosition (s - 1))))) := by
  constructor
  · intro h1 h2 hssp
    have hs : ¬ s > 12 := by omega
    have hmk : (⟨rotZdegM (((360 + 90 - 30 * s) % 360 : ℤ) : ℝ) * 1, 0⟩ : RigidTr) =
        ⟨rotZdegM (((360 + 90 - 30 * s) % 360 : ℤ) : ℝ), 0⟩ := by
      rw [mul_one]
    rw [supS2Tpc_eq_le g s hs,
        normalizeRT_eq_self _ (isOrtho_mul (isOrtho_mul isOrtho_one
          (isOrtho_mul (isOrtho_rotZdegM _) isOrtho_one)) hssp),
        hmk, comp_assoc]
  · intro h1 h2 hssp
    have hs : s > 12 := by omega
    rw [supS2Tpc_eq_gt g s hs,
        normalizeRT_eq_self _ (isOrtho_mul (isOrtho_mul isOrtho_one
          (isOrtho_mul (isOrtho_rotZdegM _) isOrtho_flipXmyz)) hssp),
        rt_mk_mul_split, comp_assoc, comp_assoc]

/-- C4 witness: at the identity-calibration fixture and sector 1, the stored SubSInner2Tpc entry equals the product of the stored SupS2Tpc and SubSInner2SupS entries. -/
theorem sectorTransformAlgebra_witness :
    subSInner2Tpc testGeo 1 = (supS2Tpc testGeo 1).comp (subSInner2SupS testGeo 1) :=
  (sectorTransformAlgebra testGeo 1 (by norm_num) (by norm_num) isOrtho_one isOrtho_one).1

/-- C5 witness: at the identity-calibration fixture and sector 1, the stored SupS2Tpc entry has the claimed translation-rotation-alignment form. -/
theorem supS2Tpc_structure_witness :
    supS2Tpc testGeo 1 = (transZRT (driftDistZ testGeo)).comp
      ((⟨rotZdegM (((360 + 90 - 30 * 1) % 360 : ℤ) : ℝ), 0⟩ : RigidTr).comp
        (testGeo.superSectorPosition (1 - 1))) :=
  (supS2Tpc_structure testGeo 1).1 (by norm_num) (by norm_num) isOrtho_one
